import Mathlib

/-!
Shallow embedding of `stackit/internal/services/postgresflex/database/resource.go`
(the Postgres Flex database resource of the STACKIT Terraform provider), together
with proofs about its state-reconciliation core: `mapFields`, `toCreatePayload`,
`getDatabase`, `Read`, `Update` and `ImportState`.

Go values are embedded as follows: `types.String` (the Terraform framework's
nullable/unknowable string) becomes the three-valued `TFString`; Go pointers to
strings become `Option String`; Go `interface{}` values stored in option maps
become `GoAny`; Go `error` values returned by the API client become `GoError`
(distinguishing `*oapierror.GenericOpenAPIError`, which carries an HTTP status
code, from plain `fmt.Errorf` errors); Go maps become association lists with
first-match lookup. In-place mutation of the `*Model` argument of `mapFields` is
embedded as explicit state passing: the function returns the final state of the
pointed-to model together with the optional error, so that the state of the
record at the moment an error is returned is observable.
-/

namespace PostgresFlexDatabase

/-- Embedding of the Terraform framework's `types.String`: a string value that
can also be null or unknown. -/
inductive TFString where
  | null
  | unknown
  | value (s : String)
deriving DecidableEq, Repr

/-- `types.String.ValueString()`: the known value, or the zero string for
null/unknown. -/
def TFString.valueString : TFString → String
  | .value s => s
  | _ => ""

/-- `types.String.ValueStringPointer()`: `nil` when null, otherwise a pointer
to the (possibly zero) value. -/
def TFString.valueStringPointer : TFString → Option String
  | .null => none
  | .unknown => some ""
  | .value s => some s

/-- `types.StringValue(s)`: a known string value. -/
def TFString.stringValue (s : String) : TFString := .value s

/-- `types.StringPointerValue(p)`: null when the pointer is `nil`, otherwise
the pointed-to value. -/
def TFString.stringPointerValue : Option String → TFString
  | none => .null
  | some s => .value s

/-- Embedding of a Go `interface{}` value held in a database options map. -/
inductive GoAny where
  | str (s : String)
  | num (n : Int)
  | boolean (b : Bool)
deriving DecidableEq, Repr

/-- The `Model` struct: the declarative record held in Terraform state. -/
structure Model where
  Id : TFString
  DatabaseId : TFString
  InstanceId : TFString
  ProjectId : TFString
  Name : TFString
  Owner : TFString
deriving DecidableEq, Repr

/-- The SDK's `postgresflex.InstanceDatabase` (the fields `mapFields` and
`getDatabase` read): `Id`, `Name` and the `Options` map of arbitrary values. -/
structure InstanceDatabase where
  Id : Option String
  Name : Option String
  Options : Option (List (String × GoAny))
deriving DecidableEq, Repr

/-- The SDK's `postgresflex.ListDatabasesResponse`: a nullable list of
databases. -/
structure ListDatabasesResponse where
  Databases : Option (List InstanceDatabase)
deriving DecidableEq, Repr

/-- The SDK's `postgresflex.CreateDatabasePayload`: nullable name and a
nullable string-to-string options map. -/
structure CreateDatabasePayload where
  Name : Option String
  Options : Option (List (String × String))
deriving DecidableEq, Repr

/-- A Go `error` as seen by this resource: either the SDK's
`*oapierror.GenericOpenAPIError` (carrying an HTTP status code) or a plain
`fmt.Errorf` error identified by its message. -/
inductive GoError where
  | genericOpenAPIError (statusCode : Nat) (body : String)
  | errorString (msg : String)
deriving DecidableEq, Repr

/-- `fmt.Sprintf("%v", err)`: the error's message text. -/
def GoError.text : GoError → String
  | .genericOpenAPIError _ body => body
  | .errorString msg => msg

/-- Modelled from the spec: `core.Separator` lives in the provider's internal
`core` package, which is not part of this source tree. The spec's composite-id
scenario (`CompositeId="p,i,db-1"`) and the schema's `id` description
(structured as `project_id`,`instance_id`,`database_id`) fix it as the
one-character string consisting of a comma. -/
def separatorChar : Char := ','

/-- `strings.Split(s, core.Separator)` with the one-character separator:
split the character sequence on every occurrence of the separator. -/
def stringsSplitSep (s : String) : List String :=
  (s.data.splitOn separatorChar).map (fun cs => String.mk cs)

/-- `strings.Join(parts, core.Separator)` with the one-character separator. -/
def stringsJoinSep (parts : List String) : String :=
  String.mk (List.intercalate [separatorChar] (parts.map String.data))

/-- `mapFields(databaseResp, model)`: maps a remote database object onto the
record. The returned `Model` is the final state of the `*Model` the Go
function mutates in place, and the `Option String` is the returned error (so a
partially-updated record at the moment of an error return is observable). The
Go function's defensive `model == nil` check is omitted: every caller in the
source passes the address of a local variable, so the record itself (not a
possibly-nil pointer) is the input here. -/
def mapFields (databaseResp : Option InstanceDatabase) (model : Model) :
    Model × Option String :=
  match databaseResp with
  | none => (model, some "response is nil")
  | some resp =>
    if resp.Id = none ∨ resp.Id = some "" then
      (model, some "id not present")
    else
      match (if model.DatabaseId.valueString ≠ "" then
               some model.DatabaseId.valueString
             else resp.Id) with
      | none => (model, some "database id not present")
      | some databaseId =>
        let idParts := [model.ProjectId.valueString,
                        model.InstanceId.valueString,
                        databaseId]
        let model1 := { model with
          Id := TFString.stringValue (stringsJoinSep idParts)
          DatabaseId := TFString.stringValue databaseId
          Name := TFString.stringPointerValue resp.Name }
        match resp.Options with
        | none => (model1, none)
        | some options =>
          match List.lookup "owner" options with
          | none => (model1, none)
          | some owner =>
            match owner with
            | .str ownerStr =>
              ({ model1 with Owner := TFString.stringValue ownerStr }, none)
            | _ => (model1, some "owner is not a string")

/-- `toCreatePayload(model)`: builds the create request; the argument is the
possibly-nil `*Model` pointer. -/
def toCreatePayload (model : Option Model) :
    Except String CreateDatabasePayload :=
  match model with
  | none => .error "nil model"
  | some m =>
    .ok { Name := m.Name.valueStringPointer
          Options := some [("owner", m.Owner.valueString)] }

/-- The body of `getDatabase`'s `for` loop over `*resp.Databases`: return the
first element whose non-nil `Id` equals the target. -/
def findDatabaseInList (dbs : List InstanceDatabase) (databaseId : String) :
    Option InstanceDatabase :=
  match dbs with
  | [] => none
  | database :: rest =>
    match database.Id with
    | some id =>
      if id = databaseId then some database
      else findDatabaseInList rest databaseId
    | none => findDatabaseInList rest databaseId

/-- `getDatabase(ctx, client, projectId, instanceId, databaseId)`: the remote
`ListDatabases` call is abstracted as its result `listResult` (an error, or a
possibly-nil response whose `Databases` field is itself nullable), since the
API has no point lookup and the function compensates by a linear scan. -/
def getDatabase (listResult : Except GoError (Option ListDatabasesResponse))
    (databaseId : String) : Except GoError InstanceDatabase :=
  match listResult with
  | .error err => .error err
  | .ok resp =>
    match resp with
    | none => .error (.errorString "response is nil")
    | some r =>
      match r.Databases with
      | none => .error (.errorString "response is nil")
      | some dbs =>
        match findDatabaseInList dbs databaseId with
        | some database => .ok database
        | none => .error (.errorString "database not found")

/-- The `Read` error branch's test `ok && oapiErr.StatusCode ==
http.StatusNotFound`: the error is a `*oapierror.GenericOpenAPIError` (the
type assertion succeeds) and its status code is 404. A plain `fmt.Errorf`
error fails the type assertion. -/
def isNotFoundOAPIError : GoError → Bool
  | .genericOpenAPIError statusCode _ => statusCode = 404
  | .errorString _ => false

/-- Outcome of a `Read` invocation as seen by the driver: the resource removed
from state, a diagnostic error, or a refreshed record written to state. -/
inductive ReadOutcome where
  | removeResource
  | error (summary detail : String)
  | setState (model : Model)
deriving DecidableEq, Repr

/-- `Read(ctx, req, resp)`: the state record is `model` and the remote
`ListDatabases` call's result is `listResult`. -/
def Read (listResult : Except GoError (Option ListDatabasesResponse))
    (model : Model) : ReadOutcome :=
  match getDatabase listResult model.DatabaseId.valueString with
  | .error err =>
    if isNotFoundOAPIError err then .removeResource
    else .error "Error reading database" ("Calling API: " ++ err.text)
  | .ok databaseResp =>
    match mapFields (some databaseResp) model with
    | (_, some e) =>
      .error "Error reading database" ("Processing API payload: " ++ e)
    | (model1, none) => .setState model1

/-- A diagnostic pushed onto the driver's diagnostics collector. -/
structure Diagnostic where
  summary : String
  detail : String
deriving DecidableEq, Repr

/-- An update request; `Update` ignores its request argument entirely (the Go
signature discards it), so the fields are opaque stand-ins. -/
structure UpdateRequest where
  plan : Model
  state : Model
deriving DecidableEq, Repr

/-- `Update(ctx, req, resp)`: the returned pair is the state written by the
handler (`none`: no state write, hence the record is untouched) and the
diagnostics it appends. -/
def Update (_req : UpdateRequest) : Option Model × List Diagnostic :=
  (none, [{ summary := "Error updating database"
            detail := "Database can't be updated" }])

/-- `ImportState(ctx, req, resp)`: parses the import identifier; on success
the three parts are seeded into `project_id`, `instance_id`, `database_id`
(returned here as a triple, in that order). -/
def ImportState (rawId : String) : Except String (String × String × String) :=
  let idParts := stringsSplitSep rawId
  if idParts.length ≠ 3 ∨ idParts.getD 0 "" = "" ∨ idParts.getD 1 "" = "" ∨
      idParts.getD 2 "" = "" then
    .error ("Expected import identifier with format " ++
      "[project_id],[instance_id],[database_id], got " ++ rawId)
  else
    .ok (idParts.getD 0 "", idParts.getD 1 "", idParts.getD 2 "")

end PostgresFlexDatabase

namespace PostgresFlexDatabase

/-! ### Helper lemmas about the `getDatabase` scan loop -/

lemma findDatabaseInList_eq_none {dbs : List InstanceDatabase}
    {databaseId : String} (h : ∀ db ∈ dbs, db.Id ≠ some databaseId) :
    findDatabaseInList dbs databaseId = none := by
  induction dbs with
  | nil => rfl
  | cons hd tl ih =>
    have hhd := h hd (List.mem_cons_self hd tl)
    have htl := ih (fun db hdb => h db (List.mem_cons_of_mem hd hdb))
    cases hid : hd.Id with
    | none => simpa [findDatabaseInList, hid] using htl
    | some i =>
      have : i ≠ databaseId := by
        intro hcontra
        exact hhd (by rw [hid, hcontra])
      simpa [findDatabaseInList, hid, this] using htl

lemma findDatabaseInList_first {pre post : List InstanceDatabase}
    {db : InstanceDatabase} {databaseId : String}
    (hdb : db.Id = some databaseId)
    (hpre : ∀ d ∈ pre, d.Id ≠ some databaseId) :
    findDatabaseInList (pre ++ db :: post) databaseId = some db := by
  induction pre with
  | nil => simp [findDatabaseInList, hdb]
  | cons hd tl ih =>
    have hhd := hpre hd (List.mem_cons_self hd tl)
    have htl := ih (fun d hd2 => hpre d (List.mem_cons_of_mem hd hd2))
    cases hid : hd.Id with
    | none => simpa [findDatabaseInList, hid] using htl
    | some i =>
      have : i ≠ databaseId := by
        intro hcontra
        exact hhd (by rw [hid, hcontra])
      simpa [findDatabaseInList, hid, this] using htl

lemma findDatabaseInList_id_of_eq_some {dbs : List InstanceDatabase}
    {db : InstanceDatabase} {databaseId : String}
    (h : findDatabaseInList dbs databaseId = some db) :
    db.Id = some databaseId := by
  induction dbs with
  | nil => simp [findDatabaseInList] at h
  | cons hd tl ih =>
    cases hid : hd.Id with
    | none =>
      rw [findDatabaseInList, hid] at h
      exact ih h
    | some i =>
      rw [findDatabaseInList, hid] at h
      by_cases hi : i = databaseId
      · simp [hi] at h
        subst h
        rw [hid, hi]
      · simp [hi] at h
        exact ih h

/-! ### Concrete sample objects used by witnesses and counterexamples -/

/-- A remote database with `Id := "x"` and nothing else. -/
def dbOther : InstanceDatabase := { Id := some "x", Name := none, Options := none }

/-- First of two remote databases sharing `Id := "db"`. -/
def dbDupFirst : InstanceDatabase :=
  { Id := some "db", Name := some "first", Options := none }

/-- Second of two remote databases sharing `Id := "db"`. -/
def dbDupSecond : InstanceDatabase :=
  { Id := some "db", Name := some "second", Options := none }

/-- A remote database whose `Id` is nil. -/
def dbNullId : InstanceDatabase :=
  { Id := none, Name := some "corrupt", Options := none }

/-- A remote database with `Id := "db"` and nothing else. -/
def dbPlain : InstanceDatabase := { Id := some "db", Name := none, Options := none }

/-- A list result holding the given databases. -/
def listOk (dbs : List InstanceDatabase) :
    Except GoError (Option ListDatabasesResponse) :=
  .ok (some { Databases := some dbs })

/-! ### Claim theorems: scan, payload builder, update -/

/-- C6: `getDatabase` scans the returned list linearly in server order and
returns the first element whose `Id` equals the target (so with duplicate Ids
the first in list order wins); if the list is empty or no element matches it
returns the distinct "database not found" error. The embedding is a total
function, so the scan never crashes. -/
theorem getDatabase_linear_scan (dbs : List InstanceDatabase)
    (databaseId : String) :
    ((∀ db ∈ dbs, db.Id ≠ some databaseId) →
      getDatabase (listOk dbs) databaseId =
        .error (.errorString "database not found")) ∧
    (∀ pre db post, dbs = pre ++ db :: post → db.Id = some databaseId →
      (∀ d ∈ pre, d.Id ≠ some databaseId) →
      getDatabase (listOk dbs) databaseId = .ok db) := by
  constructor
  · intro h
    simp [getDatabase, listOk, findDatabaseInList_eq_none h]
  · intro pre db post hsplit hdb hpre
    subst hsplit
    simp [getDatabase, listOk, findDatabaseInList_first hdb hpre]

/-- Witness for C6: on the concrete list `[dbOther, dbDupFirst, dbDupSecond]`
the scan for `"db"` returns the first duplicate, and on the empty list it
returns the not-found error. -/
theorem getDatabase_linear_scan_witness :
    getDatabase (listOk [dbOther, dbDupFirst, dbDupSecond]) "db" =
      .ok dbDupFirst ∧
    getDatabase (listOk []) "db" =
      .error (.errorString "database not found") :=
  ⟨(getDatabase_linear_scan [dbOther, dbDupFirst, dbDupSecond] "db").2
      [dbOther] dbDupFirst [dbDupSecond] rfl rfl (by decide),
   (getDatabase_linear_scan [] "db").1 (by intro db hdb; cases hdb)⟩

/-- C10: the scan is total on lists containing null-`Id` elements: a null-`Id`
element is skipped without being dereferenced (dropping it does not change the
result), a null-`Id` element is never returned as a match (every returned
element's `Id` equals the target), and an otherwise-matching element after
null-`Id` elements is still found. -/
theorem getDatabase_skips_null_ids (target : String) :
    (∀ d rest, d.Id = none →
      getDatabase (listOk (d :: rest)) target =
        getDatabase (listOk rest) target) ∧
    (∀ dbs db, getDatabase (listOk dbs) target = .ok db →
      db.Id = some target) ∧
    (∀ pre db post, (∀ d ∈ pre, d.Id = none) → db.Id = some target →
      getDatabase (listOk (pre ++ db :: post)) target = .ok db) := by
  refine ⟨?_, ?_, ?_⟩
  · intro d rest hd
    simp [getDatabase, listOk, findDatabaseInList, hd]
  · intro dbs db h
    simp only [getDatabase, listOk] at h
    cases hfind : findDatabaseInList dbs target with
    | none => rw [hfind] at h; cases h
    | some found =>
      rw [hfind] at h
      cases h
      exact findDatabaseInList_id_of_eq_some hfind
  · intro pre db post hpre hdb
    have : ∀ d ∈ pre, d.Id ≠ some target := by
      intro d hd hcontra
      rw [hpre d hd] at hcontra
      cases hcontra
    simp [getDatabase, listOk, findDatabaseInList_first hdb this]

/-- Witness for C10: with the null-`Id` element ahead of the match, the scan
still finds `dbPlain`, and dropping the null-`Id` head preserves the
result. -/
theorem getDatabase_skips_null_ids_witness :
    getDatabase (listOk [dbNullId, dbPlain]) "db" = .ok dbPlain ∧
    getDatabase (listOk [dbNullId, dbPlain]) "db" =
      getDatabase (listOk [dbPlain]) "db" :=
  ⟨(getDatabase_skips_null_ids "db").2.2 [dbNullId] dbPlain []
      (by decide) rfl,
   (getDatabase_skips_null_ids "db").1 dbNullId [dbPlain] rfl⟩

/-- C8: for every non-null record, `toCreatePayload` succeeds with `Name`
passed through (as its nullable pointer) and an `Options` mapping holding
exactly the single entry `owner ↦ record.Owner`; it fails exactly on the null
record. -/
theorem toCreatePayload_spec :
    (∀ m : Model, toCreatePayload (some m) =
      .ok { Name := m.Name.valueStringPointer
            Options := some [("owner", m.Owner.valueString)] }) ∧
    (∀ x : Option Model, (∃ e, toCreatePayload x = .error e) ↔ x = none) := by
  constructor
  · intro m; rfl
  · intro x
    cases x with
    | none => exact ⟨fun _ => rfl, fun _ => ⟨"nil model", rfl⟩⟩
    | some m =>
      constructor
      · rintro ⟨e, he⟩
        simp [toCreatePayload] at he
      · intro h; cases h

/-- C9: `Update` ignores the request, always appends the same fixed
diagnostic, writes no state (the record is untouched), and performs no remote
call (its result does not depend on any remote input). -/
theorem update_always_fails (req : UpdateRequest) :
    Update req = (none, [{ summary := "Error updating database"
                           detail := "Database can't be updated" }]) := rfl

end PostgresFlexDatabase

namespace PostgresFlexDatabase

/-! ### Import-identifier codec -/

lemma stringsSplitSep_joinSep (p i d : String)
    (hp : separatorChar ∉ p.data) (hi : separatorChar ∉ i.data)
    (hd : separatorChar ∉ d.data) :
    stringsSplitSep (stringsJoinSep [p, i, d]) = [p, i, d] := by
  have hx : ∀ l ∈ [p.data, i.data, d.data], separatorChar ∉ l := by
    intro l hl
    simp only [List.mem_cons, List.not_mem_nil, or_false] at hl
    rcases hl with rfl | rfl | rfl <;> assumption
  have hls : ([p.data, i.data, d.data] : List (List Char)) ≠ [] := by
    simp
  have hdata :
      (String.mk (List.intercalate [separatorChar]
          ([p, i, d].map String.data))).data =
        List.intercalate [separatorChar] [p.data, i.data, d.data] := rfl
  unfold stringsSplitSep stringsJoinSep
  rw [hdata]
  rw [show List.intercalate [separatorChar] [p.data, i.data, d.data] =
        ([separatorChar].intercalate [p.data, i.data, d.data]) from rfl]
  rw [List.splitOn_intercalate _ separatorChar hx hls]
  rfl

/-- C4: importing the separator-joined triple of three non-empty,
separator-free identifiers succeeds and seeds exactly those identifiers (in
the order project, instance, database); any raw identifier that does not
split into exactly three non-empty separator-delimited parts is rejected with
the validation error. -/
theorem importState_roundtrip :
    (∀ p i d : String, p ≠ "" → i ≠ "" → d ≠ "" →
      separatorChar ∉ p.data → separatorChar ∉ i.data →
      separatorChar ∉ d.data →
      ImportState (stringsJoinSep [p, i, d]) = .ok (p, i, d)) ∧
    (∀ s : String,
      ¬((stringsSplitSep s).length = 3 ∧
        ∀ part ∈ stringsSplitSep s, part ≠ "") →
      ∃ e, ImportState s = .error e) := by
  constructor
  · intro p i d hp hi hd hp2 hi2 hd2
    have hsplit := stringsSplitSep_joinSep p i d hp2 hi2 hd2
    have hcond : ¬(((([p, i, d] : List String)).length ≠ 3) ∨
        ([p, i, d] : List String).getD 0 "" = "" ∨
        ([p, i, d] : List String).getD 1 "" = "" ∨
        ([p, i, d] : List String).getD 2 "" = "") := by
      simp [List.getD, hp, hi, hd]
    simp only [ImportState, hsplit]
    rw [if_neg hcond]
    rfl
  · intro s h
    have hcond : ((stringsSplitSep s).length ≠ 3) ∨
        (stringsSplitSep s).getD 0 "" = "" ∨
        (stringsSplitSep s).getD 1 "" = "" ∨
        (stringsSplitSep s).getD 2 "" = "" := by
      by_cases hlen : (stringsSplitSep s).length = 3
      · push_neg at h
        obtain ⟨part, hmem, hpart⟩ := h hlen
        obtain ⟨a, b, c, habc⟩ := List.length_eq_three.mp hlen
        subst hpart
        rw [habc] at hmem
        rw [habc]
        simp only [List.mem_cons, List.not_mem_nil, or_false] at hmem
        rcases hmem with rfl | rfl | rfl
        · exact Or.inr (Or.inl rfl)
        · exact Or.inr (Or.inr (Or.inl rfl))
        · exact Or.inr (Or.inr (Or.inr rfl))
      · exact Or.inl hlen
    refine ⟨"Expected import identifier with format " ++
      "[project_id],[instance_id],[database_id], got " ++ s, ?_⟩
    simp only [ImportState]
    rw [if_pos hcond]

/-- Witness for C4: `"p" , "i" , "d"` round-trips, and the identifier
`"p,,d"` (empty middle part) is rejected. -/
theorem importState_roundtrip_witness :
    ImportState (stringsJoinSep ["p", "i", "d"]) = .ok ("p", "i", "d") ∧
    ∃ e, ImportState "p,,d" = .error e :=
  ⟨importState_roundtrip.1 "p" "i" "d" (by decide) (by decide) (by decide)
      (by decide) (by decide) (by decide),
   importState_roundtrip.2 "p,,d" (by decide)⟩

end PostgresFlexDatabase

namespace PostgresFlexDatabase

/-! ### Inversion and stability of the read-mapping -/

/-- Everything a successful `mapFields` run guarantees about its output
record: the resolved database id, the updated `Id`/`DatabaseId`/`Name`
fields, the untouched `ProjectId`/`InstanceId`, and how `Owner` relates to
the remote options. -/
lemma mapFields_ok_inv {resp : InstanceDatabase} {m m1 : Model}
    (h : mapFields (some resp) m = (m1, none)) :
    ∃ databaseId,
      ¬(resp.Id = none ∨ resp.Id = some "") ∧
      databaseId ≠ "" ∧
      (if m.DatabaseId.valueString ≠ "" then some m.DatabaseId.valueString
       else resp.Id) = some databaseId ∧
      m1.ProjectId = m.ProjectId ∧
      m1.InstanceId = m.InstanceId ∧
      m1.DatabaseId = TFString.value databaseId ∧
      m1.Name = TFString.stringPointerValue resp.Name ∧
      m1.Id = TFString.stringValue (stringsJoinSep
        [m.ProjectId.valueString, m.InstanceId.valueString, databaseId]) ∧
      (∀ opts v, resp.Options = some opts →
        List.lookup "owner" opts = some v → ∃ s, v = GoAny.str s) ∧
      (∀ opts s, resp.Options = some opts →
        List.lookup "owner" opts = some (GoAny.str s) →
        m1.Owner = TFString.value s) ∧
      ((resp.Options = none ∨ ∃ opts, resp.Options = some opts ∧
        List.lookup "owner" opts = none) → m1.Owner = m.Owner) := by
  simp only [mapFields] at h
  split at h
  · simp at h
  · rename_i hcond
    split at h
    · simp at h
    · rename_i databaseId heq
      have hne : databaseId ≠ "" := by
        by_cases hm : m.DatabaseId.valueString ≠ ""
        · rw [if_pos hm] at heq
          injection heq with h2
          subst h2
          exact hm
        · rw [if_neg hm] at heq
          intro hdd
          subst hdd
          exact hcond (Or.inr heq)
      refine ⟨databaseId, hcond, hne, heq, ?_⟩
      split at h
      · rename_i hopt
        simp only [Prod.mk.injEq] at h
        obtain ⟨hm1, -⟩ := h
        subst hm1
        refine ⟨rfl, rfl, rfl, rfl, rfl, ?_, ?_, fun _ => rfl⟩
        · intro opts v hov hlv
          rw [hopt] at hov
          cases hov
        · intro opts s2 hov hlv
          rw [hopt] at hov
          cases hov
      · rename_i opts hopt
        split at h
        · rename_i hlook
          simp only [Prod.mk.injEq] at h
          obtain ⟨hm1, -⟩ := h
          subst hm1
          refine ⟨rfl, rfl, rfl, rfl, rfl, ?_, ?_, fun _ => rfl⟩
          · intro opts2 v hov hlv
            rw [hopt] at hov
            injection hov with hov
            subst hov
            rw [hlook] at hlv
            cases hlv
          · intro opts2 s2 hov hlv
            rw [hopt] at hov
            injection hov with hov
            subst hov
            rw [hlook] at hlv
            cases hlv
        · rename_i owner hlook
          split at h
          · rename_i ownerStr
            simp only [Prod.mk.injEq] at h
            obtain ⟨hm1, -⟩ := h
            subst hm1
            refine ⟨rfl, rfl, rfl, rfl, rfl, ?_, ?_, ?_⟩
            · intro opts2 v hov hlv
              rw [hopt] at hov
              injection hov with hov
              subst hov
              rw [hlook] at hlv
              injection hlv with hlv
              exact ⟨ownerStr, hlv.symm⟩
            · intro opts2 s2 hov hlv
              rw [hopt] at hov
              injection hov with hov
              subst hov
              rw [hlook] at hlv
              injection hlv with hlv
              injection hlv with hlv
              subst hlv
              rfl
            · rintro (hnone | ⟨opts2, hov, hlv⟩)
              · rw [hopt] at hnone
                cases hnone
              · rw [hopt] at hov
                injection hov with hov
                subst hov
                rw [hlook] at hlv
                cases hlv
          · rename_i hnostr
            simp at h

/-- A record that already carries the values a successful `mapFields` run
would assign is a fixed point of the read-mapping. -/
lemma mapFields_stable {resp : InstanceDatabase} {m : Model}
    {databaseId : String}
    (hcond : ¬(resp.Id = none ∨ resp.Id = some ""))
    (hne : databaseId ≠ "")
    (hdb : m.DatabaseId = TFString.value databaseId)
    (hid : m.Id = TFString.stringValue (stringsJoinSep
      [m.ProjectId.valueString, m.InstanceId.valueString, databaseId]))
    (hname : m.Name = TFString.stringPointerValue resp.Name)
    (hgood : ∀ opts v, resp.Options = some opts →
      List.lookup "owner" opts = some v → ∃ s, v = GoAny.str s)
    (howner : ∀ opts s, resp.Options = some opts →
      List.lookup "owner" opts = some (GoAny.str s) →
      m.Owner = TFString.value s) :
    mapFields (some resp) m = (m, none) := by
  obtain ⟨mId, mDb, mIi, mPi, mNa, mOw⟩ := m
  dsimp only at hdb hid hname howner
  subst hdb hid hname
  simp only [mapFields]
  rw [if_neg hcond]
  simp only [TFString.valueString, TFString.stringValue]
  rw [if_pos hne]
  dsimp only
  cases hopt : resp.Options with
  | none => rfl
  | some opts =>
    dsimp only
    cases hlook : List.lookup "owner" opts with
    | none => rfl
    | some v =>
      obtain ⟨s, rfl⟩ := hgood opts v hopt hlook
      have hOw := howner opts s hopt hlook
      dsimp only
      rw [hOw]

end PostgresFlexDatabase

namespace PostgresFlexDatabase

/-! ### Composite id, idempotence, owner preservation -/

/-- C3: whenever the read-mapping succeeds (hence after the mapping step of
every successful Create or Read), the record's composite `Id` equals its
`ProjectId`, `InstanceId` and `DatabaseId` joined with the fixed separator,
in that order; the second conjunct states this for every record a `Read`
writes to state. -/
theorem composite_id_invariant :
    (∀ (resp : InstanceDatabase) (m m1 : Model),
      mapFields (some resp) m = (m1, none) →
      m1.Id = TFString.stringValue (stringsJoinSep
        [m1.ProjectId.valueString, m1.InstanceId.valueString,
         m1.DatabaseId.valueString])) ∧
    (∀ (listResult : Except GoError (Option ListDatabasesResponse))
       (m m1 : Model), Read listResult m = .setState m1 →
      m1.Id = TFString.stringValue (stringsJoinSep
        [m1.ProjectId.valueString, m1.InstanceId.valueString,
         m1.DatabaseId.valueString])) := by
  have main : ∀ (resp : InstanceDatabase) (m m1 : Model),
      mapFields (some resp) m = (m1, none) →
      m1.Id = TFString.stringValue (stringsJoinSep
        [m1.ProjectId.valueString, m1.InstanceId.valueString,
         m1.DatabaseId.valueString]) := by
    intro resp m m1 h
    obtain ⟨dbid, -, -, -, hproj, hinst, hdb, -, hid, -, -, -⟩ :=
      mapFields_ok_inv h
    rw [hid, hproj, hinst, hdb]
    rfl
  refine ⟨main, ?_⟩
  intro listResult m m1 h
  unfold Read at h
  cases hg : getDatabase listResult m.DatabaseId.valueString with
  | error err =>
    rw [hg] at h
    by_cases hb : isNotFoundOAPIError err = true
    · simp [hb] at h
    · simp [hb] at h
  | ok db =>
    rw [hg] at h
    dsimp only at h
    cases hmf : mapFields (some db) m with
    | mk m2 e =>
      rw [hmf] at h
      cases e with
      | some msg => simp at h
      | none =>
        simp only [] at h
        injection h with h2
        subst h2
        exact main db m m2 hmf

/-- Remote object for the C3 witness. -/
def respC3 : InstanceDatabase :=
  { Id := some "db-1", Name := some "mydb"
    Options := some [("owner", GoAny.str "alice")] }

/-- Seed record for the C3 witness. -/
def seedC3 : Model :=
  { Id := .null, DatabaseId := .null, InstanceId := .value "i"
    ProjectId := .value "p", Name := .null, Owner := .null }

/-- Mapped record for the C3 witness. -/
def mappedC3 : Model :=
  { Id := .value "p,i,db-1", DatabaseId := .value "db-1"
    InstanceId := .value "i", ProjectId := .value "p"
    Name := .value "mydb", Owner := .value "alice" }

/-- Witness for C3: on the spec's own scenario the mapped record carries the
joined composite id. -/
theorem composite_id_invariant_witness :
    mapFields (some respC3) seedC3 = (mappedC3, none) ∧
    mappedC3.Id = TFString.stringValue (stringsJoinSep
      [mappedC3.ProjectId.valueString, mappedC3.InstanceId.valueString,
       mappedC3.DatabaseId.valueString]) :=
  ⟨by decide, composite_id_invariant.1 respC3 seedC3 mappedC3 (by decide)⟩

/-- C5: the read-mapping is idempotent: a record produced by a successful run
is a fixed point of a second run with the same remote object. -/
theorem mapFields_idempotent (resp : InstanceDatabase) (m m1 : Model)
    (h : mapFields (some resp) m = (m1, none)) :
    mapFields (some resp) m1 = (m1, none) := by
  obtain ⟨dbid, hcond, hne, -, hproj, hinst, hdb, hname, hid, hgood, howner,
    -⟩ := mapFields_ok_inv h
  refine mapFields_stable hcond hne hdb ?_ hname hgood howner
  rw [hproj, hinst]
  exact hid

/-- Remote object for the C5 witness. -/
def respC5 : InstanceDatabase :=
  { Id := some "db-2", Name := some "seconddb"
    Options := some [("owner", GoAny.str "bob")] }

/-- Seed record for the C5 witness. -/
def seedC5 : Model :=
  { Id := .null, DatabaseId := .null, InstanceId := .value "inst"
    ProjectId := .value "proj", Name := .null, Owner := .null }

/-- Run-once record for the C5 witness. -/
def mappedC5 : Model :=
  { Id := .value "proj,inst,db-2", DatabaseId := .value "db-2"
    InstanceId := .value "inst", ProjectId := .value "proj"
    Name := .value "seconddb", Owner := .value "bob" }

/-- Witness for C5: rerunning the mapping on its own output is the
identity-success. -/
theorem mapFields_idempotent_witness :
    mapFields (some respC5) mappedC5 = (mappedC5, none) :=
  mapFields_idempotent respC5 seedC5 mappedC5 (by decide)

/-- C7: when the remote `Options` map is absent or lacks the `owner` key, a
successful mapping leaves `Owner` exactly as it was, while `Id`, `DatabaseId`
and `Name` are still updated to the mapped values. -/
theorem mapFields_absent_owner_preserved (resp : InstanceDatabase)
    (m m1 : Model) (h : mapFields (some resp) m = (m1, none))
    (habs : resp.Options = none ∨ ∃ opts, resp.Options = some opts ∧
      List.lookup "owner" opts = none) :
    m1.Owner = m.Owner ∧
    m1.Name = TFString.stringPointerValue resp.Name ∧
    ∃ databaseId, databaseId ≠ "" ∧
      m1.DatabaseId = TFString.stringValue databaseId ∧
      m1.Id = TFString.stringValue (stringsJoinSep
        [m.ProjectId.valueString, m.InstanceId.valueString, databaseId]) := by
  obtain ⟨dbid, -, hne, -, -, -, hdb, hname, hid, -, -, hpres⟩ :=
    mapFields_ok_inv h
  exact ⟨hpres habs, hname, dbid, hne, hdb, hid⟩

/-- Remote object (no options map) for the C7 witness. -/
def respC7 : InstanceDatabase :=
  { Id := some "db-9", Name := some "dbname", Options := none }

/-- Record with a previously known owner for the C7 witness. -/
def mC7 : Model :=
  { Id := .null, DatabaseId := .null, InstanceId := .value "i"
    ProjectId := .value "p", Name := .null, Owner := .value "keep" }

/-- Witness for C7: mapping a remote object without options keeps the
record's old `Owner` value while the other fields are refreshed. -/
theorem mapFields_absent_owner_preserved_witness :
    (Model.mk (.value "p,i,db-9") (.value "db-9") (.value "i") (.value "p")
        (.value "dbname") (.value "keep")).Owner = mC7.Owner ∧
    (Model.mk (.value "p,i,db-9") (.value "db-9") (.value "i") (.value "p")
        (.value "dbname") (.value "keep")).Name =
      TFString.stringPointerValue respC7.Name ∧
    ∃ databaseId, databaseId ≠ "" ∧
      (Model.mk (.value "p,i,db-9") (.value "db-9") (.value "i") (.value "p")
          (.value "dbname") (.value "keep")).DatabaseId =
        TFString.stringValue databaseId ∧
      (Model.mk (.value "p,i,db-9") (.value "db-9") (.value "i") (.value "p")
          (.value "dbname") (.value "keep")).Id =
        TFString.stringValue (stringsJoinSep
          [mC7.ProjectId.valueString, mC7.InstanceId.valueString,
           databaseId]) :=
  mapFields_absent_owner_preserved respC7 mC7
    (Model.mk (.value "p,i,db-9") (.value "db-9") (.value "i") (.value "p")
      (.value "dbname") (.value "keep"))
    (by decide) (Or.inl rfl)

end PostgresFlexDatabase

namespace PostgresFlexDatabase

/-! ### Owner type mismatch and the Read not-found protocol -/

/-- Remote object whose `owner` option is a number, for the C2
counterexample and witness. -/
def respC2 : InstanceDatabase :=
  { Id := some "db-1", Name := some "mydb"
    Options := some [("owner", GoAny.num 5)] }

/-- Record mapped against `respC2` in the C2 counterexample and witness. -/
def mC2 : Model :=
  { Id := .null, DatabaseId := .null, InstanceId := .value "i"
    ProjectId := .value "p", Name := .null, Owner := .value "bob" }

/-- C2 counterexample: on a remote object whose `owner` option is the number
5, `mapFields` does return the type-mismatch error, but the record is NOT
left unchanged: its `Id`, `DatabaseId` and `Name` fields have already been
overwritten when the error is returned. -/
theorem mapFields_type_mismatch_still_modifies :
    (mapFields (some respC2) mC2).2 = some "owner is not a string" ∧
    (mapFields (some respC2) mC2).1 ≠ mC2 := by decide

/-- C2 (amended): for every remote object whose `Id` is present and
non-empty and whose `Options` bind `owner` to a non-string value, and every
record, `mapFields` returns the type-mismatch error with the record's
`Owner` left unchanged — but with `Id`, `DatabaseId` and `Name` already
overwritten by the time the error is returned. -/
theorem mapFields_owner_type_mismatch (resp : InstanceDatabase) (m : Model)
    (opts : List (String × GoAny)) (v : GoAny)
    (hId : resp.Id ≠ none) (hIdne : resp.Id ≠ some "")
    (hopt : resp.Options = some opts)
    (hlook : List.lookup "owner" opts = some v)
    (hv : ∀ s, v ≠ GoAny.str s) :
    ∃ databaseId,
      (if m.DatabaseId.valueString ≠ "" then some m.DatabaseId.valueString
       else resp.Id) = some databaseId ∧
      mapFields (some resp) m =
        ({ m with
            Id := TFString.stringValue (stringsJoinSep
              [m.ProjectId.valueString, m.InstanceId.valueString,
               databaseId])
            DatabaseId := TFString.stringValue databaseId
            Name := TFString.stringPointerValue resp.Name },
         some "owner is not a string") := by
  obtain ⟨rid, rname, ropts⟩ := resp
  dsimp only at hId hIdne hopt ⊢
  subst hopt
  have hcond : ¬((rid = none) ∨ (rid = some "")) := by
    rintro (hh | hh)
    · exact hId hh
    · exact hIdne hh
  have hdisc : ∃ databaseId,
      (if m.DatabaseId.valueString ≠ "" then some m.DatabaseId.valueString
       else rid) = some databaseId := by
    by_cases hm : m.DatabaseId.valueString ≠ ""
    · exact ⟨m.DatabaseId.valueString, if_pos hm⟩
    · rw [if_neg hm]
      cases hr : rid with
      | none => exact absurd hr hId
      | some i2 => exact ⟨i2, rfl⟩
  obtain ⟨databaseId, hdisc⟩ := hdisc
  refine ⟨databaseId, hdisc, ?_⟩
  simp only [mapFields]
  rw [if_neg hcond, hdisc]
  dsimp only
  rw [hlook]
  cases v with
  | str s => exact absurd rfl (hv s)
  | num n => rfl
  | boolean b => rfl

/-- Witness for the amended C2 at the concrete mismatching input. -/
theorem mapFields_owner_type_mismatch_witness :
    ∃ databaseId,
      (if mC2.DatabaseId.valueString ≠ "" then
        some mC2.DatabaseId.valueString
       else respC2.Id) = some databaseId ∧
      mapFields (some respC2) mC2 =
        ({ mC2 with
            Id := TFString.stringValue (stringsJoinSep
              [mC2.ProjectId.valueString, mC2.InstanceId.valueString,
               databaseId])
            DatabaseId := TFString.stringValue databaseId
            Name := TFString.stringPointerValue respC2.Name },
         some "owner is not a string") :=
  mapFields_owner_type_mismatch respC2 mC2 [("owner", GoAny.num 5)]
    (GoAny.num 5) (by decide) (by decide) rfl rfl
    (fun s h => GoAny.noConfusion h)

/-- State record for the C1 counterexample and witness. -/
def mC1 : Model :=
  { Id := .value "p,i,db-1", DatabaseId := .value "db-1"
    InstanceId := .value "i", ProjectId := .value "p"
    Name := .value "mydb", Owner := .value "bob" }

/-- C1 counterexample: when the remote list no longer contains the stored
`DatabaseId` (the scan's own "not found" condition), `Read` does NOT drop
the record — the scan's plain error fails the `GenericOpenAPIError` type
assertion, so `Read` surfaces it as a hard failure. -/
theorem read_scan_not_found_not_removed :
    Read (listOk []) mC1 =
      .error "Error reading database" "Calling API: database not found" ∧
    Read (listOk []) mC1 ≠ .removeResource := by decide

/-- C1 (amended): `Read` drops the record (with no surfaced error) exactly
when the lookup fails with a `GenericOpenAPIError` carrying HTTP status 404
(which only the remote list call itself can produce); every other lookup
failure — including the scan's own "database not found" condition, which is
a plain error and not of that shape — is surfaced as a hard failure. -/
theorem read_removes_only_on_oapi_404
    (listResult : Except GoError (Option ListDatabasesResponse))
    (model : Model) (err : GoError)
    (herr : getDatabase listResult model.DatabaseId.valueString =
      .error err) :
    (Read listResult model = .removeResource ↔
      isNotFoundOAPIError err = true) ∧
    (isNotFoundOAPIError err = false →
      Read listResult model =
        .error "Error reading database" ("Calling API: " ++ err.text)) ∧
    isNotFoundOAPIError (GoError.errorString "database not found") =
      false := by
  refine ⟨?_, ?_, rfl⟩
  · constructor
    · intro hr
      by_contra hb
      have hb2 : isNotFoundOAPIError err = false := by
        cases hh : isNotFoundOAPIError err
        · rfl
        · exact absurd hh hb
      simp [Read, herr, hb2] at hr
    · intro hb
      simp [Read, herr, hb]
  · intro hb
    simp [Read, herr, hb]

/-- Witness for the amended C1: the empty remote list yields the scan's
"database not found", which is surfaced as a hard read failure. -/
theorem read_removes_only_on_oapi_404_witness :
    Read (listOk []) mC1 =
      .error "Error reading database"
        ("Calling API: " ++ (GoError.errorString "database not found").text) :=
  (read_removes_only_on_oapi_404 (listOk []) mC1
    (GoError.errorString "database not found") rfl).2.1 rfl

end PostgresFlexDatabase

namespace PostgresFlexDatabase

/-- Record for the C8 witness. -/
def mC8 : Model :=
  { Id := .null, DatabaseId := .null, InstanceId := .value "i"
    ProjectId := .value "p", Name := .value "mydb", Owner := .value "alice" }

/-- Witness for C8: the concrete record yields the expected payload, and the
nil record is rejected. -/
theorem toCreatePayload_spec_witness :
    toCreatePayload (some mC8) =
      .ok { Name := some "mydb", Options := some [("owner", "alice")] } ∧
    (∃ e, toCreatePayload (none : Option Model) = .error e) :=
  ⟨by exact toCreatePayload_spec.1 mC8, (toCreatePayload_spec.2 none).mpr rfl⟩

end PostgresFlexDatabase
